import Mathlib

/-!
Verification development for the SkillVantage normalization / aggregation /
matching core.

The embedding mirrors two source regions:
* `processAndUpload` and the ad-hoc (student, role) match effect in
  `src/components/Dashboard.tsx`;
* the per-student bulk post-processing inside `analyzeSkillset` in
  `src/services/geminiService.ts`.

Modelling conventions:
* JS strings are Lean `String`s manipulated through their `List Char` data;
  `toLowerCase` / `toUpperCase` are modelled per-character with
  `Char.toLower` / `Char.toUpper` (adequate for the ASCII data handled here;
  JS `length` counts UTF-16 units, which agrees with the character count on
  the Basic Multilingual Plane).
* JS cell values are an inductive `CellVal`; JS truthiness is `jsTruthy`.
* `Number(string)` is modelled by `jsNumTruthy`, which decides whether the
  coercion yields a truthy (non-NaN, nonzero) number.  Exponent magnitude is
  not bounded, so double overflow/underflow at exponents beyond ±308 is not
  modelled; no statement below depends on such inputs.
* `Math.round` over the (nonnegative) quotients appearing in the source is
  modelled by exact rational round-half-up arithmetic on `Nat`.
* JS `Map`/`Set`/object key order: for string keys that are not array
  indices, JS objects enumerate keys in insertion order, and `Set` iterates
  in insertion order; tables are therefore association lists in insertion
  order (every admitted skill token fails `Number` coercion or the length
  filter, so no table key is ever an array-index-like string).
-/

/-- JS cell value as produced by spreadsheet/JSON parsing.  Numbers are
restricted to integers, which covers every falsy/truthy distinction the
source draws (`if (!val) return;`). -/
inductive CellVal where
  | str (s : String)
  | num (n : Int)
  | boolVal (b : Bool)
  | nullVal
  | undef
deriving DecidableEq, Repr

/-- JS truthiness of a cell value (`!val` in the source negates this). -/
def jsTruthy : CellVal → Bool
  | .str s => !(s.data.isEmpty)
  | .num n => n != 0
  | .boolVal b => b
  | .nullVal => false
  | .undef => false

/-- JS `String(val)` coercion. -/
def jsToString : CellVal → String
  | .str s => s
  | .num n => toString n
  | .boolVal b => if b then "true" else "false"
  | .nullVal => "null"
  | .undef => "undefined"

/-- `String.prototype.toLowerCase`, modelled per character. -/
def lowerStr (s : String) : String := String.mk (s.data.map Char.toLower)

/-- `s.charAt(0).toUpperCase() + s.slice(1)` — capitalize the first
character, keep the rest unchanged (bulk-path missing-skill output). -/
def capFirst (s : String) : String :=
  match s.data with
  | [] => ""
  | c :: rest => String.mk (Char.toUpper c :: rest)

/-- `t.charAt(0).toUpperCase() + t.slice(1).toLowerCase()` — the skill-token
normalization in `processAndUpload`. -/
def titleCase (s : String) : String :=
  match s.data with
  | [] => ""
  | c :: rest => String.mk (Char.toUpper c :: rest.map Char.toLower)

/-- `String.prototype.trim`, modelled on character data.  (JS trims a
slightly larger whitespace set — form feed, NBSP, … — than
`Char.isWhitespace`; the difference is irrelevant to the data handled
here.) -/
def jsTrim (s : String) : String :=
  String.mk (((s.data.dropWhile Char.isWhitespace).reverse.dropWhile Char.isWhitespace).reverse)

/-- `leadsWith n h` : the characters `n` are a leading segment of `h`. -/
def leadsWith : List Char → List Char → Bool
  | [], _ => true
  | _ :: _, [] => false
  | a :: as, b :: bs => a == b && leadsWith as bs

/-- `occursIn n h` : the characters `n` occur contiguously inside `h`
(JS `String.prototype.includes`, which is true for the empty needle). -/
def occursIn (n : List Char) : List Char → Bool
  | [] => n.isEmpty
  | b :: bs => leadsWith n (b :: bs) || occursIn n bs

/-- JS `hay.includes(needle)`. -/
def jsIncludes (hay needle : String) : Bool := occursIn needle.data hay.data

/-- Split on every `,` or `;`, keeping empty segments
(JS `valueStr.split(/[,;]/)`). -/
def splitOnSep (cs : List Char) : List (List Char) :=
  match cs with
  | [] => [[]]
  | c :: rest =>
    let r := splitOnSep rest
    if c == ',' || c == ';' then [] :: r
    else
      match r with
      | [] => [[c]]
      | h :: t => (c :: h) :: t

/-- `s.replace(/['"]/g, '')` — delete every single and double quote,
wherever it occurs. -/
def stripQuotes (s : String) : String :=
  String.mk (s.data.filter (fun c => !(c == '\'' || c == '"')))

/-! ### `Number(string)` truthiness -/

/-- Split a character list at the first character satisfying `p`;
returns the part before it and, when found, the part after it. -/
def splitFirst (p : Char → Bool) : List Char → List Char × Option (List Char)
  | [] => ([], none)
  | c :: cs =>
    if p c then ([], some cs)
    else
      let r := splitFirst p cs
      (c :: r.1, r.2)

/-- Valid exponent part after the `e`/`E`: optional sign then 1+ digits. -/
def validExpPart : List Char → Bool
  | [] => false
  | c :: rest =>
    if c == '+' || c == '-' then !rest.isEmpty && rest.all Char.isDigit
    else (c :: rest).all Char.isDigit

/-- Valid decimal mantissa: digits with at most one `.`, at least one digit
overall (`1`, `1.`, `.5`, `1.5`; not `.` or the empty string). -/
def validMantissa (cs : List Char) : Bool :=
  match splitFirst (fun c => c == '.') cs with
  | (m, none) => !m.isEmpty && m.all Char.isDigit
  | (a, some b) => a.all Char.isDigit && b.all Char.isDigit && !(a.isEmpty && b.isEmpty)

/-- A decimal mantissa denotes a nonzero value iff some digit is nonzero. -/
def mantissaNonzero (cs : List Char) : Bool :=
  cs.any (fun c => Char.isDigit c && c != '0')

def hexDigitB (c : Char) : Bool :=
  Char.isDigit c || ('a' ≤ c && c ≤ 'f') || ('A' ≤ c && c ≤ 'F')

def octDigitB (c : Char) : Bool := '0' ≤ c && c ≤ '7'

def binDigitB (c : Char) : Bool := c == '0' || c == '1'

/-- `StrUnsignedDecimalLiteral`: `Infinity`, or mantissa with optional
exponent.  Returns `none` for NaN, otherwise whether the value is
nonzero. -/
def unsignedDecInfo (cs : List Char) : Option Bool :=
  if cs = "Infinity".data then some true
  else
    match splitFirst (fun c => c == 'e' || c == 'E') cs with
    | (m, none) => if validMantissa m then some (mantissaNonzero m) else none
    | (m, some ex) =>
      if validMantissa m && validExpPart ex then some (mantissaNonzero m) else none

/-- Non-decimal integer literal body (`0x…`, `0o…`, `0b…`). -/
def radixInfo (digs : List Char) (isDig : Char → Bool) : Option Bool :=
  if !digs.isEmpty && digs.all isDig then some (digs.any (fun c => c != '0')) else none

/-- `StrNumericLiteral` of a trimmed, non-empty string: sign is only allowed
on decimal literals; `0x`/`0o`/`0b` prefixes select a radix. -/
def strNumericInfo (cs : List Char) : Option Bool :=
  match cs with
  | '0' :: x :: rest =>
    if x == 'x' || x == 'X' then radixInfo rest hexDigitB
    else if x == 'o' || x == 'O' then radixInfo rest octDigitB
    else if x == 'b' || x == 'B' then radixInfo rest binDigitB
    else unsignedDecInfo cs
  | '+' :: rest => unsignedDecInfo rest
  | '-' :: rest => unsignedDecInfo rest
  | _ => unsignedDecInfo cs

/-- Truthiness of `Number(s)`: the whitespace-trimmed string must be a
non-empty numeric literal of nonzero value (NaN and 0 are falsy).  This is
exactly the guard `!Number(t)` negates in the tokenizer. -/
def jsNumTruthy (s : String) : Bool :=
  let t := (jsTrim s).data
  if t.isEmpty then false
  else
    match strNumericInfo t with
    | none => false
    | some nz => nz

/-! ### Tokenizer / Normalizer (`processAndUpload`, Dashboard.tsx lines 36-70) -/

/-- One split token after per-token cleanup:
`valueStr.split(/[,;]/).map(s => s.trim().replace(/['"]/g, ''))`. -/
def splitTokens (v : String) : List String :=
  (splitOnSep v.data).map (fun cs => stripQuotes (jsTrim (String.mk cs)))

/-- The tokens of a skills-column value that pass the
`t.length > 1 && !Number(t)` guard, already normalized by `titleCase`
(in source order, duplicates retained — the frequency table counts each). -/
def admittedTokens (v : String) : List String :=
  ((splitTokens v).filter (fun t => t.data.length > 1 && !jsNumTruthy t)).map titleCase

/-- Identifier-column test on the lowercased key:
`keyStr.includes('id') || keyStr.includes('roll') ||
 (keyStr.includes('student') && !keyStr.includes('name'))`. -/
def isIdKey (keyStr : String) : Bool :=
  jsIncludes keyStr "id" || jsIncludes keyStr "roll" ||
    (jsIncludes keyStr "student" && !jsIncludes keyStr "name")

/-- Department-column test on the lowercased key:
`keyStr.includes('dept') || keyStr.includes('branch') || keyStr.includes('program')`. -/
def isDeptKey (keyStr : String) : Bool :=
  jsIncludes keyStr "dept" || jsIncludes keyStr "branch" || jsIncludes keyStr "program"

/-- A normalized student record: inferred id, inferred department, and the
deduplicated skill list in insertion order (JS `Set` iteration order). -/
structure NormRecord where
  id : String
  department : String
  skills : List String
deriving DecidableEq, Repr

/-- `Set.prototype.add`: append unless already present. -/
def addSkill (l : List String) (t : String) : List String :=
  if l.contains t then l else l ++ [t]

/-- `const valueStr = String(val).trim()` for one row entry. -/
def entryValueStr (kv : String × CellVal) : String := jsTrim (jsToString kv.2)

/-- `const keyStr = key.toLowerCase()` for one row entry. -/
def entryKeyStr (kv : String × CellVal) : String := lowerStr kv.1

/-- The skill tokens one row entry contributes (empty for falsy values,
identifier columns, department columns, name columns and short values).
These are exactly the tokens that bump the global frequency table. -/
def entryTokens (kv : String × CellVal) : List String :=
  if !jsTruthy kv.2 then []
  else if isIdKey (entryKeyStr kv) then []
  else if isDeptKey (entryKeyStr kv) then []
  else if (entryValueStr kv).data.length > 1 && !jsIncludes (entryKeyStr kv) "name" then
    admittedTokens (entryValueStr kv)
  else []

/-- One step of the per-row `Object.entries(row).forEach` loop. -/
def stepEntry (st : NormRecord) (kv : String × CellVal) : NormRecord :=
  if !jsTruthy kv.2 then st
  else if isIdKey (entryKeyStr kv) then { st with id := entryValueStr kv }
  else if isDeptKey (entryKeyStr kv) then { st with department := entryValueStr kv }
  else if (entryValueStr kv).data.length > 1 && !jsIncludes (entryKeyStr kv) "name" then
    { st with skills := (admittedTokens (entryValueStr kv)).foldl addSkill st.skills }
  else st

/-- Normalize one raw row at positional `index` (0-based, as in
`rawData.forEach((row, index) => …)`): defaults `Student-<index+1>` and
`General`, then the entry loop. -/
def normalizeRow (row : List (String × CellVal)) (index : Nat) : NormRecord :=
  row.foldl stepEntry
    { id := "Student-" ++ toString (index + 1), department := "General", skills := [] }

/-- All admitted tokens of a row, in processing order (the token stream that
drives the frequency-table increments). -/
def rowTokens (row : List (String × CellVal)) : List String :=
  (row.map entryTokens).flatten

/-- `skillFreq[k] = (skillFreq[k] || 0) + 1` on an insertion-ordered
association list (JS object with non-index string keys). -/
def bump (tbl : List (String × Nat)) (k : String) : List (String × Nat) :=
  match tbl with
  | [] => [(k, 1)]
  | (k', n) :: rest => if k' == k then (k', n + 1) :: rest else (k', n) :: bump rest k

/-- Frequency table of a token stream. -/
def buildFreq (toks : List String) : List (String × Nat) := toks.foldl bump []

/-- `skillFreq[k] || 0`. -/
def lookupCount (tbl : List (String × Nat)) (k : String) : Nat :=
  match tbl.find? (fun e => e.1 == k) with
  | some e => e.2
  | none => 0

/-- The dataset-wide `skillFreq` table of `processAndUpload`: the increments
happen once per admitted token occurrence, in encounter order. -/
def datasetFreq (rows : List (List (String × CellVal))) : List (String × Nat) :=
  buildFreq ((rows.map rowTokens).flatten)

/-- Stable insertion step for the descending-count sort. -/
def jsSortInsert (x : String × Nat) : List (String × Nat) → List (String × Nat)
  | [] => [x]
  | y :: l => if x.2 ≥ y.2 then x :: y :: l else y :: jsSortInsert x l

/-- `Object.entries(skillFreq).sort((a, b) => b[1] - a[1])`: ES2019 `sort`
is stable, and a stable sort's output is uniquely determined by the
comparator's preorder, so a stable insertion sort is a faithful model. -/
def jsStableSortDesc : List (String × Nat) → List (String × Nat)
  | [] => []
  | x :: l => jsSortInsert x (jsStableSortDesc l)

/-- `sortedSkills = entries.sort(…).slice(0, 50)` (the `{name, count}`
objects are kept as pairs). -/
def topSkillsOf (freq : List (String × Nat)) : List (String × Nat) :=
  (jsStableSortDesc freq).take 50

/-- The parts of the `aiPayload` built by `processAndUpload` that the claims
concern (the `report`'s wall-clock `processingTimeMs` and the raw `sample`
slice are I/O and omitted). -/
structure Payload where
  totalRows : Nat
  validRows : Nat
  uniqueSkillsFound : Nat
  topSkills : List (String × Nat)
  rawStudents : List NormRecord
deriving DecidableEq, Repr

/-- The full preprocessing pass of `processAndUpload`. -/
def processRows (rows : List (List (String × CellVal))) : Payload :=
  let freq := datasetFreq rows
  { totalRows := rows.length,
    validRows := (rows.filter (fun r => r.length > 0)).length,
    uniqueSkillsFound := freq.length,
    topSkills := topSkillsOf freq,
    rawStudents := rows.enum.map (fun p => normalizeRow p.2 p.1) }

/-! ### Fuzzy Matcher — ad-hoc call site (Dashboard.tsx lines 125-172) and
bulk call site (geminiService.ts lines 114-158) -/

/-- `new Set(list)` — insertion-order deduplication. -/
def dedupKeep (l : List String) : List String := l.foldl addSkill []

/-- The satisfaction test both call sites run for one (lowercased) required
skill against the lowercased candidate set: exact membership, else a linear
scan for `s.includes(req) || req.includes(s)` (the scan breaks on the first
hit, which only affects which element witnessed it, not the boolean). -/
def fuzzyFound (candsLower : List String) (reqLower : String) : Bool :=
  candsLower.contains reqLower ||
    candsLower.any (fun s => jsIncludes s reqLower || jsIncludes reqLower s)

/-- `Math.round(num / den)` for `den > 0`, as exact round-half-up rational
arithmetic (`Math.round` rounds halves toward positive infinity). -/
def jsRoundDiv (num den : Nat) : Nat := (2 * num + den) / (2 * den)

/-- `Math.round((matchCount / den) * 100)`. -/
def scoreOf (matchCount den : Nat) : Nat := jsRoundDiv (matchCount * 100) den

/-- The shared accumulator step: count a satisfied requirement, or push
`out` onto the missing list. -/
def matchStep (f : String → Bool) (g : String → String)
    (acc : Nat × List String) (req : String) : Nat × List String :=
  if f req then (acc.1 + 1, acc.2) else (acc.1, acc.2 ++ [g req])

/-- Result of the ad-hoc (student, role) effect (its radar data is chart
plumbing and out of scope). -/
structure AdhocStats where
  matchScore : Nat
  missing : List String
deriving DecidableEq, Repr

/-- The ad-hoc match effect: lowercase the student's raw skills into a set,
walk `requiredSkills` in order pushing unsatisfied ones verbatim, then
`Math.round((matchCount / (requiredSkills.length || 1)) * 100)`. -/
def adhocCompute (rawSkills requiredSkills : List String) : AdhocStats :=
  let studentSkills := dedupKeep (rawSkills.map lowerStr)
  let r := requiredSkills.foldl
    (matchStep (fun req => fuzzyFound studentSkills (lowerStr req)) (fun req => req)) (0, [])
  { matchScore := scoreOf r.1 (if requiredSkills.length == 0 then 1 else requiredSkills.length),
    missing := r.2 }

structure RoleDefn where
  title : String
  requiredSkills : List String
deriving DecidableEq, Repr

structure DeptMapping where
  department : String
  possibleRoles : List RoleDefn
deriving DecidableEq, Repr

/-- The per-student profile pushed by the bulk pass.  The TS field
`matchScore : number` is modelled as `Option Nat` so that presence of a
numeric score is itself observable; the source always assigns it. -/
structure StudentProfile where
  id : String
  department : String
  rawSkills : List String
  matchScore : Option Nat
  missingSkills : List String
deriving DecidableEq, Repr

/-- Department matching of the bulk pass: case-insensitive substring
containment in either direction. -/
def deptMatches (d : DeptMapping) (dept : String) : Bool :=
  jsIncludes (lowerStr d.department) (lowerStr dept) ||
    jsIncludes (lowerStr dept) (lowerStr d.department)

/-- `departmentMappings?.find(…) || departmentMappings?.[0]`. -/
def findDeptMap (mappings : List DeptMapping) (dept : String) : Option DeptMapping :=
  match mappings.find? (fun d => deptMatches d dept) with
  | some d => some d
  | none => mappings.head?

/-- `deptMap?.possibleRoles?.[0]?.requiredSkills || []` — the required-skill
list of the first role of the matched (or first) department mapping. -/
def defaultRequired (mappings : List DeptMapping) (dept : String) : List String :=
  match findDeptMap mappings dept with
  | some d =>
    match d.possibleRoles.head? with
    | some role => role.requiredSkills
    | none => []
  | none => []

/-- The bulk per-student pass of `analyzeSkillset`: required skills are
lowercased into a `Set` (insertion-order dedup), unsatisfied ones are pushed
as `req.charAt(0).toUpperCase() + req.slice(1)`, the denominator is
`requiredSet.size || 1`, and the missing list is `slice(0, 5)`. -/
def bulkStudent (mappings : List DeptMapping) (raw : NormRecord) : StudentProfile :=
  let requiredSet := dedupKeep ((defaultRequired mappings raw.department).map lowerStr)
  let studentSkillsLower := dedupKeep (raw.skills.map lowerStr)
  let r := requiredSet.foldl
    (matchStep (fun req => fuzzyFound studentSkillsLower req) capFirst) (0, [])
  { id := raw.id, department := raw.department, rawSkills := raw.skills,
    matchScore :=
      some (scoreOf r.1 (if requiredSet.length == 0 then 1 else requiredSet.length)),
    missingSkills := r.2.take 5 }

/-- The cleaning statistics (wall-clock `processingTimeMs` omitted). -/
structure CleaningReport where
  totalRows : Nat
  validRows : Nat
  missingValuesFixed : Nat
  uniqueSkillsFound : Nat
deriving DecidableEq, Repr

/-- The part of `analyzeSkillset`'s result the claims concern: the
post-processing that attaches per-student profiles and passes the cleaning
report through (`{...aiResult, students, cleaningReport: inputData.report}`);
the AI-authored fields are opaque collaborator output. -/
structure AnalysisR where
  students : List StudentProfile
  cleaningReport : Option CleaningReport
deriving DecidableEq, Repr

/-- The deterministic post-processing of `analyzeSkillset` applied to the
taxonomy (`aiResult.departmentMappings`, `[]` when the collaborator returned
nothing usable) and the uploaded payload's report and raw students. -/
def analyzePost (mappings : List DeptMapping) (report : CleaningReport)
    (rawStudents : List NormRecord) : AnalysisR :=
  { students := rawStudents.map (bulkStudent mappings),
    cleaningReport := some report }

/-- A one-role taxonomy used in concrete evaluations below. -/
def csTaxonomy (reqs : List String) : List DeptMapping :=
  [{ department := "CS", possibleRoles := [{ title := "Dev", requiredSkills := reqs }] }]

/-! ### Concrete sanity evaluations of the embedding -/

example : jsNumTruthy "42" = true := by decide
example : jsNumTruthy "00" = false := by decide
example : jsNumTruthy "0.5" = true := by decide
example : jsNumTruthy "irrelevant" = false := by decide
example : jsNumTruthy "Infinity" = true := by decide
example : jsNumTruthy "0x1f" = true := by decide
example : jsNumTruthy " 12 " = true := by decide
example : jsNumTruthy "1e3" = true := by decide
example : jsNumTruthy "" = false := by decide
example : jsIncludes "react native" "react" = true := by decide
example : jsIncludes "javascript" "js" = false := by decide
example :
    normalizeRow [("Student ID", .str "S1"), ("Dept", .str "CS"),
      ("Skills", .str "Python, SQL; Java")] 0 =
    { id := "S1", department := "CS", skills := ["Python", "Sql", "Java"] } := by decide
example : admittedTokens "Python, SQL; Java" = ["Python", "Sql", "Java"] := by decide
example : admittedTokens "JS, JS" = ["Js", "Js"] := by decide
example : normalizeRow [("Notes", .str "irrelevant")] 4 =
    { id := "Student-5", department := "General", skills := ["Irrelevant"] } := by decide
example : (adhocCompute ["Python", "SQL"] ["Python", "SQL", "Java"]).matchScore = 67 := by
  decide
example : (adhocCompute ["Python", "SQL"] ["Python", "SQL", "Java"]).missing = ["Java"] := by
  decide
example : (adhocCompute ["react native"] ["React"]).matchScore = 100 := by decide
example : (adhocCompute ["javascript"] ["JS"]).matchScore = 0 := by decide
example : (adhocCompute [] ["python"]).missing = ["python"] := by decide
example :
    (bulkStudent (csTaxonomy ["SQL"])
      { id := "S1", department := "CS", skills := [] }).missingSkills = ["Sql"] := by decide
example :
    (bulkStudent (csTaxonomy ["Java", "java", "Python"])
      { id := "S1", department := "CS", skills := ["java"] }).matchScore = some 50 := by decide

/-! ### Supporting lemmas -/

theorem matchLoop_fst (f : String → Bool) (g : String → String) :
    ∀ (reqs : List String) (mc : Nat) (ms : List String),
      (reqs.foldl (matchStep f g) (mc, ms)).1 = mc + reqs.countP f := by
  intro reqs
  induction reqs with
  | nil => intro mc ms; simp
  | cons r rs ih =>
    intro mc ms
    cases hf : f r with
    | true =>
      simp [List.foldl_cons, matchStep, hf, ih, List.countP_cons]
      omega
    | false => simp [List.foldl_cons, matchStep, hf, ih, List.countP_cons]

theorem matchLoop_snd (f : String → Bool) (g : String → String) :
    ∀ (reqs : List String) (mc : Nat) (ms : List String),
      (reqs.foldl (matchStep f g) (mc, ms)).2 =
        ms ++ (reqs.filter (fun r => !f r)).map g := by
  intro reqs
  induction reqs with
  | nil => intro mc ms; simp
  | cons r rs ih =>
    intro mc ms
    cases hf : f r with
    | true => simp [List.foldl_cons, matchStep, hf, ih, List.filter_cons]
    | false => simp [List.foldl_cons, matchStep, hf, ih, List.filter_cons]

theorem ifZero_eq_max (n : Nat) : (if n == 0 then 1 else n) = max 1 n := by
  cases n with
  | zero => simp
  | succ k => simp

theorem scoreOf_le_100 (m d : Nat) (hm : m ≤ d) (hd : 0 < d) : scoreOf m d ≤ 100 := by
  unfold scoreOf jsRoundDiv
  calc (2 * (m * 100) + d) / (2 * d)
      ≤ (d + 100 * (2 * d)) / (2 * d) := Nat.div_le_div_right (by nlinarith)
    _ = d / (2 * d) + 100 := Nat.add_mul_div_right d 100 (by omega)
    _ = 100 := by rw [Nat.div_eq_of_lt (by omega)]

theorem scoreOf_zero (d : Nat) (hd : 0 < d) : scoreOf 0 d = 0 := by
  show (2 * (0 * 100) + d) / (2 * d) = 0
  have : 2 * (0 * 100) + d = d := by omega
  rw [this]
  exact Nat.div_eq_of_lt (by omega)

theorem mem_addSkill (acc : List String) (x a : String) :
    a ∈ addSkill acc x ↔ a ∈ acc ∨ a = x := by
  unfold addSkill
  split
  · next h =>
    have hx : x ∈ acc := by
      have := List.elem_iff.mp h
      exact this
    constructor
    · exact Or.inl
    · rintro (h1 | rfl)
      · exact h1
      · exact hx
  · simp [List.mem_append]

theorem mem_foldl_addSkill (l : List String) :
    ∀ (acc : List String) (a : String), a ∈ l.foldl addSkill acc ↔ a ∈ acc ∨ a ∈ l := by
  induction l with
  | nil => simp
  | cons x xs ih =>
    intro acc a
    simp only [List.foldl_cons]
    rw [ih, mem_addSkill, List.mem_cons]
    tauto

theorem mem_dedupKeep (l : List String) (a : String) : a ∈ dedupKeep l ↔ a ∈ l := by
  unfold dedupKeep
  rw [mem_foldl_addSkill]
  simp

theorem fuzzyFound_iff (cands : List String) (req : String) :
    fuzzyFound (dedupKeep (cands.map lowerStr)) (lowerStr req) = true ↔
      (lowerStr req ∈ cands.map lowerStr ∨
        ∃ c ∈ cands, jsIncludes (lowerStr c) (lowerStr req) = true ∨
          jsIncludes (lowerStr req) (lowerStr c) = true) := by
  unfold fuzzyFound
  rw [Bool.or_eq_true, List.any_eq_true]
  constructor
  · rintro (h | ⟨s, hs, hp⟩)
    · exact Or.inl ((mem_dedupKeep _ _).mp (List.elem_iff.mp h))
    · rcases (mem_dedupKeep _ _).mp hs with hs'
      rcases List.mem_map.mp hs' with ⟨c, hc, rfl⟩
      exact Or.inr ⟨c, hc, by simpa [Bool.or_eq_true] using hp⟩
  · rintro (h | ⟨c, hc, hp⟩)
    · exact Or.inl (List.elem_iff.mpr ((mem_dedupKeep _ _).mpr h))
    · refine Or.inr ⟨lowerStr c, (mem_dedupKeep _ _).mpr (List.mem_map_of_mem _ hc), ?_⟩
      simpa [Bool.or_eq_true] using hp

theorem adhocCompute_missing (cands reqs : List String) :
    (adhocCompute cands reqs).missing =
      reqs.filter (fun r => !fuzzyFound (dedupKeep (cands.map lowerStr)) (lowerStr r)) := by
  unfold adhocCompute
  simp only [matchLoop_snd]
  simp

theorem adhocCompute_score (cands reqs : List String) :
    (adhocCompute cands reqs).matchScore =
      scoreOf (reqs.countP (fun r => fuzzyFound (dedupKeep (cands.map lowerStr)) (lowerStr r)))
        (max 1 reqs.length) := by
  unfold adhocCompute
  simp only [matchLoop_fst, ifZero_eq_max]
  simp

theorem bulkStudent_missing (mappings : List DeptMapping) (raw : NormRecord) :
    (bulkStudent mappings raw).missingSkills =
      (((dedupKeep ((defaultRequired mappings raw.department).map lowerStr)).filter
          (fun r => !fuzzyFound (dedupKeep (raw.skills.map lowerStr)) r)).map capFirst).take 5 := by
  unfold bulkStudent
  simp only [matchLoop_snd]
  simp

theorem fuzzyFound_nil (r : String) : fuzzyFound [] r = false := rfl

theorem bulkStudent_nil_taxonomy (raw : NormRecord) :
    bulkStudent [] raw =
      { id := raw.id, department := raw.department, rawSkills := raw.skills,
        matchScore := some 0, missingSkills := [] } := by
  unfold bulkStudent defaultRequired findDeptMap
  simp [dedupKeep, scoreOf, jsRoundDiv]

theorem lookupCount_cons_ne (a : String) (n : Nat) (l : List (String × Nat)) (k : String)
    (h : (a == k) = false) : lookupCount ((a, n) :: l) k = lookupCount l k := by
  simp [lookupCount, List.find?, h]

theorem lookupCount_cons_eq (a : String) (n : Nat) (l : List (String × Nat)) :
    lookupCount ((a, n) :: l) a = n := by
  simp [lookupCount, List.find?]

theorem lookupCount_bump (tbl : List (String × Nat)) (j k : String) :
    lookupCount (bump tbl j) k = lookupCount tbl k + (if j == k then 1 else 0) := by
  induction tbl with
  | nil =>
    cases hjk : j == k
    · simp [bump, lookupCount, List.find?, hjk]
    · simp [bump, lookupCount, List.find?, hjk]
  | cons e rest ih =>
    obtain ⟨a, n⟩ := e
    by_cases h1 : a = j
    · subst h1
      have hb : bump ((a, n) :: rest) a = (a, n + 1) :: rest := by simp [bump]
      rw [hb]
      by_cases h2 : a = k
      · subst h2
        rw [lookupCount_cons_eq, lookupCount_cons_eq]
        simp
      · have hak : (a == k) = false := beq_eq_false_iff_ne.mpr h2
        rw [lookupCount_cons_ne _ _ _ _ hak, lookupCount_cons_ne _ _ _ _ hak]
        simp [beq_eq_false_iff_ne.mpr h2]
    · have haj : (a == j) = false := beq_eq_false_iff_ne.mpr h1
      have hb : bump ((a, n) :: rest) j = (a, n) :: bump rest j := by simp [bump, haj]
      rw [hb]
      by_cases h2 : a = k
      · subst h2
        rw [lookupCount_cons_eq, lookupCount_cons_eq]
        have hja : (j == a) = false := beq_eq_false_iff_ne.mpr (fun hh => h1 hh.symm)
        simp [hja]
      · have hak : (a == k) = false := beq_eq_false_iff_ne.mpr h2
        rw [lookupCount_cons_ne _ _ _ _ hak, lookupCount_cons_ne _ _ _ _ hak, ih]

theorem lookupCount_foldl_bump (toks : List String) :
    ∀ (tbl : List (String × Nat)) (k : String),
      lookupCount (toks.foldl bump tbl) k = lookupCount tbl k + toks.count k := by
  induction toks with
  | nil => intro tbl k; simp
  | cons t ts ih =>
    intro tbl k
    rw [List.foldl_cons, ih, lookupCount_bump, List.count_cons]
    cases ht : t == k
    · simp [ht]
    · simp [ht]
      omega

theorem bulkStudent_score (mappings : List DeptMapping) (raw : NormRecord) :
    (bulkStudent mappings raw).matchScore =
      some (scoreOf
        ((dedupKeep ((defaultRequired mappings raw.department).map lowerStr)).countP
          (fun r => fuzzyFound (dedupKeep (raw.skills.map lowerStr)) r))
        (max 1 (dedupKeep ((defaultRequired mappings raw.department).map lowerStr)).length)) := by
  unfold bulkStudent
  simp only [matchLoop_fst, ifZero_eq_max]
  simp

/-! ### Claims -/

/-- C1 (amended): in the skill-frequency table built by `processAndUpload`,
the count recorded for a skill equals the total number of admitted token
occurrences normalizing to it across all rows and skills columns — a single
row listing the same skill twice contributes 2, not 1. -/
theorem c1_freq_counts_occurrences (rows : List (List (String × CellVal))) (s : String) :
    lookupCount (datasetFreq rows) s = ((rows.map rowTokens).flatten).count s := by
  unfold datasetFreq buildFreq
  rw [lookupCount_foldl_bump]
  simp [lookupCount]

/-- C1 counterexample: the single row `{"Skills": "JS, JS"}` records count 2
for `Js` in the frequency table, while exactly 1 distinct record's skill set
contains `Js` — per-record counting, as the claim states it, is violated. -/
theorem c1_per_record_count_cex :
    lookupCount (datasetFreq [[("Skills", .str "JS, JS")]]) "Js" = 2 ∧
    ((processRows [[("Skills", .str "JS, JS")]]).rawStudents.filter
        (fun r => r.skills.contains "Js")).length = 1 ∧
    (2 : Nat) ≠ 1 := by decide

/-- C2 (amended): with no department mapping at all, the bulk report is
still produced without failing — the cleaning statistics pass through and
every record keeps its id and raw skill set — but each record is assigned
the numeric match score 0 (with an empty missing-skill list), rather than
having the score omitted/undefined. -/
theorem c2_missing_taxonomy_report (report : CleaningReport) (rawStudents : List NormRecord) :
    (analyzePost [] report rawStudents).cleaningReport = some report ∧
    (analyzePost [] report rawStudents).students.map (fun p => p.id) =
      rawStudents.map (fun r => r.id) ∧
    (analyzePost [] report rawStudents).students.map (fun p => p.rawSkills) =
      rawStudents.map (fun r => r.skills) ∧
    (analyzePost [] report rawStudents).students.map (fun p => p.matchScore) =
      rawStudents.map (fun _ => some 0) ∧
    (analyzePost [] report rawStudents).students.map (fun p => p.missingSkills) =
      rawStudents.map (fun _ => ([] : List String)) := by
  refine ⟨rfl, ?_, ?_, ?_, ?_⟩ <;>
  · show List.map _ (rawStudents.map (bulkStudent [])) = _
    rw [List.map_map]
    refine List.map_congr_left ?_
    intro raw _
    simp [bulkStudent_nil_taxonomy, Function.comp]

/-- C2 counterexample: with an empty taxonomy the produced student profile
carries `matchScore = some 0` — a numeric score is attached, not omitted. -/
theorem c2_match_score_present_cex :
    (analyzePost []
        { totalRows := 1, validRows := 1, missingValuesFixed := 0, uniqueSkillsFound := 1 }
        [{ id := "S1", department := "CS", skills := ["Python"] }]).students.map
      (fun p => p.matchScore) = [some 0] ∧ some 0 ≠ (none : Option Nat) := by decide

/-- C3 (amended): normalizing the raw row `{"Notes": "irrelevant"}` at
positional index 4 applies both defaults (`Student-5`, `General`), but the
`Notes` column matches the skills rule (its name contains none of the
identifier/department substrings nor `name`, and its value is longer than
one character), so the skill set is `{"Irrelevant"}`, not empty. -/
theorem c3_notes_row_actual :
    normalizeRow [("Notes", .str "irrelevant")] 4 =
      { id := "Student-5", department := "General", skills := ["Irrelevant"] } := by decide

/-- C3 counterexample: the claimed empty skill set is wrong — the record's
skill set is `["Irrelevant"]`. -/
theorem c3_notes_row_cex :
    (normalizeRow [("Notes", .str "irrelevant")] 4).skills = ["Irrelevant"] ∧
    (["Irrelevant"] : List String) ≠ [] := by decide

/-- C4 (amended): the ad-hoc path returns every unsatisfied required skill
verbatim (original casing, no capitalization), in required-list order,
uncapped; the bulk path first lowercases and deduplicates the required list
(first-occurrence order), returns each unsatisfied entry with its first
letter uppercased and the rest lowercase (original interior casing lost),
capped at 5 entries. -/
theorem c4_missing_lists_characterized :
    (∀ cands reqs, (adhocCompute cands reqs).missing =
      reqs.filter (fun r => !fuzzyFound (dedupKeep (cands.map lowerStr)) (lowerStr r))) ∧
    (∀ mappings raw, (bulkStudent mappings raw).missingSkills =
      (((dedupKeep ((defaultRequired mappings raw.department).map lowerStr)).filter
          (fun r => !fuzzyFound (dedupKeep (raw.skills.map lowerStr)) r)).map capFirst).take 5) :=
  ⟨adhocCompute_missing, bulkStudent_missing⟩

/-- C4 counterexample: the ad-hoc path reports unsatisfied `"python"`
uncapitalized, and the bulk path reports unsatisfied `"SQL"` as `"Sql"`,
losing the original casing — both contradict the claim. -/
theorem c4_missing_casing_cex :
    (adhocCompute [] ["python"]).missing = ["python"] ∧
    capFirst "python" = "Python" ∧ ("python" : String) ≠ "Python" ∧
    (bulkStudent (csTaxonomy ["SQL"])
        { id := "S1", department := "CS", skills := [] }).missingSkills = ["Sql"] ∧
    ("Sql" : String) ≠ "SQL" := by decide

/-- C5 (amended): the ad-hoc score is
`round(matched / max(1, |requiredList|) * 100)` (round-half-up); the bulk
score uses the case-folded, deduplicated required list as denominator
(`max 1` of its length).  In both paths the score is bounded by 100; an
empty required list scores 0 with no missing skills; an empty candidate set
scores 0 with every (ad-hoc) required skill missing. -/
theorem c5_score_formula :
    (∀ cands reqs, (adhocCompute cands reqs).matchScore =
      jsRoundDiv
        ((reqs.countP (fun r => fuzzyFound (dedupKeep (cands.map lowerStr)) (lowerStr r))) * 100)
        (max 1 reqs.length)) ∧
    (∀ mappings raw, (bulkStudent mappings raw).matchScore =
      some (jsRoundDiv
        (((dedupKeep ((defaultRequired mappings raw.department).map lowerStr)).countP
            (fun r => fuzzyFound (dedupKeep (raw.skills.map lowerStr)) r)) * 100)
        (max 1 (dedupKeep ((defaultRequired mappings raw.department).map lowerStr)).length))) ∧
    (∀ cands reqs, (adhocCompute cands reqs).matchScore ≤ 100) ∧
    (∀ mappings raw, (bulkStudent mappings raw).matchScore.getD 0 ≤ 100) ∧
    (∀ cands, (adhocCompute cands []).matchScore = 0 ∧ (adhocCompute cands []).missing = []) ∧
    (∀ reqs, (adhocCompute [] reqs).matchScore = 0 ∧ (adhocCompute [] reqs).missing = reqs) ∧
    (∀ mappings i d,
      (bulkStudent mappings { id := i, department := d, skills := [] }).matchScore = some 0) := by
  have hcountA : ∀ reqs : List String,
      reqs.countP (fun r => fuzzyFound (dedupKeep ((List.map lowerStr []))) (lowerStr r)) = 0 := by
    intro reqs
    simp [dedupKeep, fuzzyFound_nil]
  refine ⟨?_, ?_, ?_, ?_, ?_, ?_, ?_⟩
  · intro cands reqs
    rw [adhocCompute_score]
    rfl
  · intro mappings raw
    rw [bulkStudent_score]
    rfl
  · intro cands reqs
    rw [adhocCompute_score]
    exact scoreOf_le_100 _ _
      (le_trans (List.countP_le_length _) (le_max_right 1 _)) (lt_of_lt_of_le Nat.one_pos (le_max_left 1 _))
  · intro mappings raw
    rw [bulkStudent_score]
    exact scoreOf_le_100 _ _
      (le_trans (List.countP_le_length _) (le_max_right 1 _)) (lt_of_lt_of_le Nat.one_pos (le_max_left 1 _))
  · intro cands
    constructor
    · rw [adhocCompute_score]
      simpa using scoreOf_zero 1 Nat.one_pos
    · rw [adhocCompute_missing]
      simp
  · intro reqs
    constructor
    · rw [adhocCompute_score]
      rw [hcountA]
      exact scoreOf_zero _ (lt_of_lt_of_le Nat.one_pos (le_max_left 1 _))
    · rw [adhocCompute_missing]
      simp [dedupKeep, fuzzyFound_nil]
  · intro mappings i d
    rw [bulkStudent_score]
    have hc : ∀ L : List String,
        L.countP (fun r => fuzzyFound (dedupKeep (List.map lowerStr
          ({ id := i, department := d, skills := [] } : NormRecord).skills)) r) = 0 := by
      intro L
      simp [dedupKeep, fuzzyFound_nil]
    rw [hc]
    rw [scoreOf_zero _ (lt_of_lt_of_le Nat.one_pos (le_max_left 1 _))]

/-- C5 counterexample: with required list `["Java","java","Python"]` and
candidate `{"java"}`, the bulk path scores 50 (denominator 2, the distinct
case-folded count), while the claimed formula with `totalRequired = 3` (the
list length) and 2 satisfied requirements yields 67. -/
theorem c5_bulk_dedup_score_cex :
    (bulkStudent (csTaxonomy ["Java", "java", "Python"])
        { id := "S1", department := "CS", skills := ["java"] }).matchScore = some 50 ∧
    jsRoundDiv
      (((["Java", "java", "Python"] : List String).countP
          (fun r => fuzzyFound (dedupKeep (List.map lowerStr ["java"])) (lowerStr r))) * 100)
      (max 1 (["Java", "java", "Python"] : List String).length) = 67 ∧
    (50 : Nat) ≠ 67 := by decide

/-- C6: in both matcher call sites a required skill is satisfied iff the
case-folded candidate set contains its case-folding, or some candidate
contains it or is contained in it as a literal substring (case-folded);
candidate `{"react native"}` satisfies `"React"`, candidate
`{"javascript"}` does not satisfy `"JS"`. -/
theorem c6_fuzzy_satisfaction_iff :
    (∀ (cands : List String) (req : String),
      fuzzyFound (dedupKeep (cands.map lowerStr)) (lowerStr req) = true ↔
      (lowerStr req ∈ cands.map lowerStr ∨
        ∃ c ∈ cands, jsIncludes (lowerStr c) (lowerStr req) = true ∨
          jsIncludes (lowerStr req) (lowerStr c) = true)) ∧
    (adhocCompute ["react native"] ["React"]).matchScore = 100 ∧
    (adhocCompute ["javascript"] ["JS"]).matchScore = 0 ∧
    (adhocCompute ["javascript"] ["JS"]).missing = ["JS"] ∧
    (bulkStudent (csTaxonomy ["React"])
      { id := "S1", department := "CS", skills := ["react native"] }).matchScore = some 100 ∧
    (bulkStudent (csTaxonomy ["JS"])
      { id := "S1", department := "CS", skills := ["javascript"] }).matchScore = some 0 :=
  ⟨fuzzyFound_iff, by decide, by decide, by decide, by decide, by decide⟩

/-! ### Character-case and title-case lemmas (for C7) -/

theorem charToNat_ofNat (n : Nat) (h : n.isValidChar) : (Char.ofNat n).toNat = n := by
  simp [Char.ofNat, h, Char.ofNatAux, Char.toNat, UInt32.ofNatCore, UInt32.toNat]

theorem toUpper_eq_shift (c : Char) (h : c.toNat ≥ 97 ∧ c.toNat ≤ 122) :
    c.toUpper = Char.ofNat (c.toNat - 32) := by
  simp [Char.toUpper, h]

theorem toUpper_eq_self (c : Char) (h : ¬(c.toNat ≥ 97 ∧ c.toNat ≤ 122)) :
    c.toUpper = c := by
  simp [Char.toUpper, h]

theorem toLower_eq_shift (c : Char) (h : c.toNat ≥ 65 ∧ c.toNat ≤ 90) :
    c.toLower = Char.ofNat (c.toNat + 32) := by
  simp [Char.toLower, h]

theorem toLower_eq_self (c : Char) (h : ¬(c.toNat ≥ 65 ∧ c.toNat ≤ 90)) :
    c.toLower = c := by
  simp [Char.toLower, h]

theorem toUpper_toUpper (c : Char) : c.toUpper.toUpper = c.toUpper := by
  by_cases h : c.toNat ≥ 97 ∧ c.toNat ≤ 122
  · rw [toUpper_eq_shift c h]
    apply toUpper_eq_self
    rw [charToNat_ofNat _ (Or.inl (by omega))]
    omega
  · rw [toUpper_eq_self c h, toUpper_eq_self c h]

theorem toLower_toLower (c : Char) : c.toLower.toLower = c.toLower := by
  by_cases h : c.toNat ≥ 65 ∧ c.toNat ≤ 90
  · rw [toLower_eq_shift c h]
    apply toLower_eq_self
    rw [charToNat_ofNat _ (Or.inl (by omega))]
    omega
  · rw [toLower_eq_self c h, toLower_eq_self c h]

theorem titleCase_idem (s : String) : titleCase (titleCase s) = titleCase s := by
  obtain ⟨data⟩ := s
  cases data with
  | nil => rfl
  | cons c rest =>
    apply String.ext
    show Char.toUpper (Char.toUpper c) :: (rest.map Char.toLower).map Char.toLower =
      Char.toUpper c :: rest.map Char.toLower
    rw [toUpper_toUpper, List.map_map]
    congr 1
    exact List.map_congr_left (fun a _ => by simp [Function.comp, toLower_toLower])

theorem titleCase_length (s : String) : (titleCase s).data.length = s.data.length := by
  obtain ⟨data⟩ := s
  cases data with
  | nil => rfl
  | cons c rest =>
    show (Char.toUpper c :: rest.map Char.toLower).length = (c :: rest).length
    simp

theorem mem_admittedTokens (v t : String) (h : t ∈ admittedTokens v) :
    ∃ raw, t = titleCase raw ∧ raw.data.length > 1 ∧ jsNumTruthy raw = false := by
  unfold admittedTokens at h
  rcases List.mem_map.mp h with ⟨raw, hraw, rfl⟩
  rcases List.mem_filter.mp hraw with ⟨_, hcond⟩
  rw [Bool.and_eq_true] at hcond
  refine ⟨raw, rfl, ?_, ?_⟩
  · simpa using hcond.1
  · simpa using hcond.2

theorem mem_skills_stepEntry (st : NormRecord) (kv : String × CellVal) (t : String)
    (h : t ∈ (stepEntry st kv).skills) :
    t ∈ st.skills ∨ ∃ v : String, t ∈ admittedTokens v := by
  unfold stepEntry at h
  split at h
  · exact Or.inl h
  · split at h
    · exact Or.inl h
    · split at h
      · exact Or.inl h
      · split at h
        · rcases (mem_foldl_addSkill _ _ _).mp h with h1 | h2
          · exact Or.inl h1
          · exact Or.inr ⟨_, h2⟩
        · exact Or.inl h

theorem mem_skills_foldl (row : List (String × CellVal)) :
    ∀ (st : NormRecord) (t : String), t ∈ (row.foldl stepEntry st).skills →
      t ∈ st.skills ∨ ∃ v : String, t ∈ admittedTokens v := by
  induction row with
  | nil => exact fun st t h => Or.inl h
  | cons kv rest ih =>
    intro st t h
    rw [List.foldl_cons] at h
    rcases ih _ t h with h1 | h2
    · exact mem_skills_stepEntry st kv t h1
    · exact Or.inr h2

/-- C7 (amended): every token stored in a normalized record's skill set is
non-empty, longer than one character, and a fixed point of title-casing; it
is the title-casing of some raw token of length > 1 whose `Number` coercion
is falsy — i.e. tokens coercing to a nonzero number are excluded, but a
purely numeric token coercing to 0 (such as `"00"`) is admitted. -/
theorem c7_skill_token_invariant (row : List (String × CellVal)) (index : Nat) (t : String)
    (h : t ∈ (normalizeRow row index).skills) :
    t ≠ "" ∧ t.data.length > 1 ∧ t = titleCase t ∧
      ∃ raw, t = titleCase raw ∧ raw.data.length > 1 ∧ jsNumTruthy raw = false := by
  unfold normalizeRow at h
  rcases mem_skills_foldl row _ t h with h0 | ⟨v, hv⟩
  · simp at h0
  · obtain ⟨raw, ht, hlen, hnum⟩ := mem_admittedTokens v t hv
    subst ht
    refine ⟨?_, ?_, ?_, raw, rfl, hlen, hnum⟩
    · intro he
      have h0 : (titleCase raw).data.length = 0 := by rw [he]; rfl
      rw [titleCase_length] at h0
      omega
    · rw [titleCase_length]
      exact hlen
    · rw [titleCase_idem]

theorem c7_skill_token_invariant_witness :
    ("Python" ∈ (normalizeRow [("Skills", CellVal.str "Python, 00")] 0).skills) ∧
      "Python" ≠ "" ∧ ("Python" : String).data.length > 1 ∧
      "Python" = titleCase "Python" :=
  ⟨by decide,
    (c7_skill_token_invariant [("Skills", CellVal.str "Python, 00")] 0 "Python" (by decide)).1,
    (c7_skill_token_invariant [("Skills", CellVal.str "Python, 00")] 0 "Python" (by decide)).2.1,
    (c7_skill_token_invariant [("Skills", CellVal.str "Python, 00")] 0 "Python"
      (by decide)).2.2.1⟩

/-- C7 counterexample: the row `{"Skills": "00, Python"}` admits the purely
numeric token `"00"` into the skill set, because `Number("00")` is 0 and
therefore falsy — the claim that no token parsing as a pure number is ever
admitted is violated. -/
theorem c7_numeric_token_cex :
    (normalizeRow [("Skills", CellVal.str "00, Python")] 0).skills = ["00", "Python"] ∧
    ("00" : String).data.all Char.isDigit = true ∧
    ("00" : String).data.length > 1 := by decide

/-! ### Stable-sort lemmas (for C8) -/

theorem jsSortInsert_perm (x : String × Nat) (l : List (String × Nat)) :
    (jsSortInsert x l).Perm (x :: l) := by
  induction l with
  | nil => exact List.Perm.refl _
  | cons y ys ih =>
    unfold jsSortInsert
    split
    · exact List.Perm.refl _
    · exact (List.Perm.cons y ih).trans (List.Perm.swap x y ys)

theorem jsStableSortDesc_perm (l : List (String × Nat)) : (jsStableSortDesc l).Perm l := by
  induction l with
  | nil => exact List.Perm.refl _
  | cons x xs ih => exact (jsSortInsert_perm x (jsStableSortDesc xs)).trans (List.Perm.cons x ih)

theorem jsSortInsert_pairwise (x : String × Nat) (l : List (String × Nat))
    (h : l.Pairwise (fun a b => b.2 ≤ a.2)) :
    (jsSortInsert x l).Pairwise (fun a b => b.2 ≤ a.2) := by
  induction l with
  | nil => exact List.pairwise_singleton _ _
  | cons y ys ih =>
    rw [List.pairwise_cons] at h
    obtain ⟨hy, hys⟩ := h
    unfold jsSortInsert
    split
    · next hxy =>
      rw [List.pairwise_cons]
      refine ⟨?_, List.pairwise_cons.mpr ⟨hy, hys⟩⟩
      intro b hb
      rcases List.mem_cons.mp hb with rfl | hb'
      · exact hxy
      · exact le_trans (hy b hb') hxy
    · next hxy =>
      have hlt : x.2 < y.2 := Nat.lt_of_not_le hxy
      rw [List.pairwise_cons]
      refine ⟨?_, ih hys⟩
      intro b hb
      have hb' := (jsSortInsert_perm x ys).mem_iff.mp hb
      rcases List.mem_cons.mp hb' with rfl | hb''
      · exact Nat.le_of_lt hlt
      · exact hy b hb''

theorem jsStableSortDesc_pairwise (l : List (String × Nat)) :
    (jsStableSortDesc l).Pairwise (fun a b => b.2 ≤ a.2) := by
  induction l with
  | nil => exact List.Pairwise.nil
  | cons x xs ih => exact jsSortInsert_pairwise x _ ih

theorem jsSortInsert_filter_eq (x : String × Nat) (l : List (String × Nat)) (c : Nat)
    (hx : (x.2 == c) = true) :
    (jsSortInsert x l).filter (fun e => e.2 == c) = x :: l.filter (fun e => e.2 == c) := by
  induction l with
  | nil => simp [jsSortInsert, List.filter_cons, hx]
  | cons y ys ih =>
    unfold jsSortInsert
    split
    · next hxy => rw [List.filter_cons, if_pos hx]
    · next hxy =>
      have hlt : x.2 < y.2 := Nat.lt_of_not_le hxy
      have hy : (y.2 == c) = false := by
        rw [beq_eq_false_iff_ne]
        have hc : x.2 = c := by simpa using hx
        omega
      rw [List.filter_cons, if_neg (by simp [hy]), ih, List.filter_cons,
        if_neg (by simp [hy])]

theorem jsSortInsert_filter_ne (x : String × Nat) (l : List (String × Nat)) (c : Nat)
    (hx : (x.2 == c) = false) :
    (jsSortInsert x l).filter (fun e => e.2 == c) = l.filter (fun e => e.2 == c) := by
  induction l with
  | nil => simp [jsSortInsert, List.filter_cons, hx]
  | cons y ys ih =>
    unfold jsSortInsert
    split
    · next hxy => rw [List.filter_cons, if_neg (by simp [hx])]
    · next hxy => rw [List.filter_cons, ih, List.filter_cons]

theorem jsStableSortDesc_filter (l : List (String × Nat)) (c : Nat) :
    (jsStableSortDesc l).filter (fun e => e.2 == c) = l.filter (fun e => e.2 == c) := by
  induction l with
  | nil => rfl
  | cons x xs ih =>
    show (jsSortInsert x (jsStableSortDesc xs)).filter _ = _
    cases hx : x.2 == c
    · rw [jsSortInsert_filter_ne x _ c hx, ih, List.filter_cons, if_neg (by simp [hx])]
    · rw [jsSortInsert_filter_eq x _ c hx, ih, List.filter_cons, if_pos hx]

theorem keys_bump (tbl : List (String × Nat)) (k : String) :
    (bump tbl k).map Prod.fst = addSkill (tbl.map Prod.fst) k := by
  induction tbl with
  | nil => simp [bump, addSkill]
  | cons e rest ih =>
    obtain ⟨a, n⟩ := e
    by_cases h : a = k
    · subst h
      simp [bump, addSkill, List.contains_cons]
    · have hak : (a == k) = false := beq_eq_false_iff_ne.mpr h
      have hka : (k == a) = false := beq_eq_false_iff_ne.mpr (fun hh => h hh.symm)
      have hb : bump ((a, n) :: rest) k = (a, n) :: bump rest k := by simp [bump, hak]
      rw [hb, List.map_cons, ih]
      cases hc : (rest.map Prod.fst).contains k
      · have hm : k ∉ rest.map Prod.fst := by simpa using hc
        simp [addSkill, hm, Ne.symm h]
      · have hm : k ∈ rest.map Prod.fst := by simpa using hc
        simp [addSkill, hm]

theorem keys_foldl_bump (toks : List String) :
    ∀ tbl : List (String × Nat),
      (toks.foldl bump tbl).map Prod.fst = toks.foldl addSkill (tbl.map Prod.fst) := by
  induction toks with
  | nil => intro tbl; rfl
  | cons t ts ih => intro tbl; rw [List.foldl_cons, List.foldl_cons, ih, keys_bump]

/-- C8: `topSkills` is the frequency-table entries stably sorted by
descending count and truncated to 50: the result is a permutation of the
table (before truncation), counts are non-increasing, entries of any fixed
count keep the table's relative order (the stability tie-break), and the
table's key order is itself the first-insertion order of the token stream.
Determinism is inherent: the whole pass is a pure function of the rows. -/
theorem c8_top_skills_stable_sorted (rows : List (List (String × CellVal))) :
    (processRows rows).topSkills = (jsStableSortDesc (datasetFreq rows)).take 50 ∧
    (jsStableSortDesc (datasetFreq rows)).Perm (datasetFreq rows) ∧
    (jsStableSortDesc (datasetFreq rows)).Pairwise (fun a b => b.2 ≤ a.2) ∧
    (∀ c : Nat, (jsStableSortDesc (datasetFreq rows)).filter (fun e => e.2 == c) =
      (datasetFreq rows).filter (fun e => e.2 == c)) ∧
    (datasetFreq rows).map Prod.fst = dedupKeep ((rows.map rowTokens).flatten) :=
  ⟨rfl, jsStableSortDesc_perm _, jsStableSortDesc_pairwise _,
    fun c => jsStableSortDesc_filter _ c,
    by unfold datasetFreq buildFreq dedupKeep; rw [keys_foldl_bump]; rfl⟩

/-- C9 (amended): tokenizing a skills-column value splits on `,` or `;`,
trims each token, then deletes every quote character wherever it occurs —
interior quotes included, not only enclosing ones — before the length > 1
and `Number`-falsiness filters and title-casing; consequently no admitted
token contains a quote character. -/
theorem c9_tokenization_characterized :
    (∀ v t : String, t ∈ admittedTokens v ↔ ∃ cs ∈ splitOnSep v.data,
      t = titleCase (stripQuotes (jsTrim (String.mk cs))) ∧
      (stripQuotes (jsTrim (String.mk cs))).data.length > 1 ∧
      jsNumTruthy (stripQuotes (jsTrim (String.mk cs))) = false) ∧
    (∀ v : String, (splitTokens v).all
      (fun t => t.data.all (fun c => !(c == '\'' || c == '"'))) = true) ∧
    splitTokens "\"C++\"; Don't, 42, ok" = ["C++", "Dont", "42", "ok"] ∧
    admittedTokens "\"C++\"; Don't, 42, ok" = ["C++", "Dont", "Ok"] := by
  refine ⟨?_, ?_, by decide, by decide⟩
  · intro v t
    constructor
    · intro ht
      unfold admittedTokens splitTokens at ht
      rcases List.mem_map.mp ht with ⟨s, hs, rfl⟩
      rcases List.mem_filter.mp hs with ⟨hs1, hs2⟩
      rcases List.mem_map.mp hs1 with ⟨cs, hcs, rfl⟩
      rw [Bool.and_eq_true] at hs2
      refine ⟨cs, hcs, rfl, ?_, ?_⟩
      · simpa using hs2.1
      · simpa using hs2.2
    · rintro ⟨cs, hcs, rfl, hlen, hnum⟩
      unfold admittedTokens splitTokens
      refine List.mem_map.mpr ⟨_, ?_, rfl⟩
      refine List.mem_filter.mpr ⟨List.mem_map.mpr ⟨cs, hcs, rfl⟩, ?_⟩
      rw [Bool.and_eq_true]
      constructor
      · exact decide_eq_true hlen
      · simp [hnum]
  · intro v
    rw [List.all_eq_true]
    intro t ht
    unfold splitTokens at ht
    rcases List.mem_map.mp ht with ⟨cs, _, rfl⟩
    rw [List.all_eq_true]
    intro c hc
    exact (List.mem_filter.mp hc).2

/-- C9 counterexample: the interior apostrophe of the token `Don't stop` is
deleted — the cleaned token is `Dont stop`, not the claimed unchanged
`Don't stop`. -/
theorem c9_interior_quote_cex :
    splitTokens "Don't stop" = ["Dont stop"] ∧
    ("Dont stop" : String) ≠ "Don't stop" := by decide

theorem stepEntry_falsy (st : NormRecord) (k : String) (v : CellVal)
    (h : jsTruthy v = false) : stepEntry st (k, v) = st := by
  unfold stepEntry
  rw [if_pos (by simp [h])]

theorem entryTokens_falsy (k : String) (v : CellVal) (h : jsTruthy v = false) :
    entryTokens (k, v) = [] := by
  unfold entryTokens
  rw [if_pos (by simp [h])]

/-- C10: a falsy cell (`""`, `0`, `null`, `undefined`, `false`) is skipped
before column classification: removing it from the row changes neither the
normalized record (so it can never set the identifier or department, and the
positional default id and `"General"` stand in) nor the row's admitted
token stream. -/
theorem c10_falsy_cell_skipped (pre post : List (String × CellVal)) (k : String) (v : CellVal)
    (index : Nat) (h : jsTruthy v = false) :
    normalizeRow (pre ++ (k, v) :: post) index = normalizeRow (pre ++ post) index ∧
    rowTokens (pre ++ (k, v) :: post) = rowTokens (pre ++ post) := by
  constructor
  · unfold normalizeRow
    rw [List.foldl_append, List.foldl_append, List.foldl_cons, stepEntry_falsy _ _ _ h]
  · unfold rowTokens
    rw [List.map_append, List.map_append, List.map_cons, entryTokens_falsy _ _ h]
    simp

theorem c10_falsy_cell_skipped_witness :
    jsTruthy (CellVal.num 0) = false ∧
      normalizeRow [("ID", CellVal.num 0), ("Dept", CellVal.str "CS")] 0 =
        normalizeRow [("Dept", CellVal.str "CS")] 0 :=
  ⟨by decide,
    (c10_falsy_cell_skipped [] [("Dept", CellVal.str "CS")] "ID" (CellVal.num 0) 0
      (by decide)).1⟩
